import Mathlib

/-!
Verification of the tmux bridge and terminal-output parser of the
claude-telegram-bot repository (src/tmux/bridge.ts, src/tmux/parser.ts,
src/tmux/config.ts).  JavaScript strings are embedded as `List Char`
(code points); timestamps (`Date.now()`) are threaded explicitly as `Nat`
milliseconds; the persisted JSON stores (locks.json, sessions.json) are
embedded as association lists keyed by session name.
-/

namespace ClaudeTelegramBot

/-- JavaScript string, embedded as its list of code points. -/
abbrev JSStr := List Char

/-- Literal helper: a Lean string literal as a `JSStr`. -/
def strL (s : String) : JSStr := s.toList

/-- Lookup of `obj[k]` in a JS object embedded as an association list
(keys are unique in stores built by `setKey`/`delKey` from `[]`). -/
def lookupKey (k : JSStr) : List (JSStr × α) → Option α
  | [] => none
  | (k', v) :: rest => if k' = k then some v else lookupKey k rest

/-- Assignment `obj[k] = v`: replaces the entry in place when the key is
present (JS objects keep the original insertion position), appends otherwise. -/
def setKey (k : JSStr) (v : α) : List (JSStr × α) → List (JSStr × α)
  | [] => [(k, v)]
  | (k', v') :: rest => if k' = k then (k, v) :: rest else (k', v') :: setKey k v rest

/-- Deletion `delete obj[k]`: removes the entry for `k` (all of them, which on
the unique-key stores the bridge builds is the single one). -/
def delKey (k : JSStr) : List (JSStr × α) → List (JSStr × α)
  | [] => []
  | (k', v') :: rest => if k' = k then delKey k rest else (k', v') :: delKey k rest

/-! ## Lock manager (src/tmux/bridge.ts lines 634-685, src/tmux/config.ts) -/

/-- Lock timeout in milliseconds (`TMUX_LOCK_TIMEOUT`, default 60 s). -/
def TMUX_LOCK_TIMEOUT : Nat := 60000

/-- A persisted lock record (`TmuxLock` of src/tmux/types.ts); `Date` fields
are epoch milliseconds. -/
structure TmuxLock where
  sessionName : JSStr
  acquiredAt : Nat
  expiresAt : Nat
  deviceInfo : JSStr
deriving DecidableEq, Repr

/-- The content of the persisted lock file (locks.json), keyed by session name. -/
abbrev LockStore := List (JSStr × TmuxLock)

/-- `TmuxBridge.acquireLock`: refuse when a lock for the session exists whose
expiry is strictly in the future (`new Date(existing.expiresAt) > new Date()`);
otherwise create a lock expiring at `now + TMUX_LOCK_TIMEOUT`, store it under
the session's key and persist.  On refusal nothing is written back. -/
def acquireLock (sessionName : JSStr) (now : Nat) (locks : LockStore) :
    Option TmuxLock × LockStore :=
  let existing := lookupKey sessionName locks
  match existing with
  | some l =>
    if now < l.expiresAt then
      (none, locks)
    else
      let lock : TmuxLock :=
        ⟨sessionName, now, now + TMUX_LOCK_TIMEOUT, strL "telegram-bot"⟩
      (some lock, setKey sessionName lock locks)
  | none =>
    let lock : TmuxLock :=
      ⟨sessionName, now, now + TMUX_LOCK_TIMEOUT, strL "telegram-bot"⟩
    (some lock, setKey sessionName lock locks)

/-- `TmuxBridge.releaseLock`: unconditional delete of the session's entry,
then persist. -/
def releaseLock (sessionName : JSStr) (locks : LockStore) : LockStore :=
  delKey sessionName locks

/-- Failure modes of `sendMessage` (thrown `Error`s in the source). -/
inductive SendError where
  | noSession
  | lockBusy
  | timeout
  | cancelled
  | other
deriving DecidableEq, Repr

/-- `TmuxBridge.sendMessage`, viewed through its effect on the persisted lock
store.  The keystroke injection, metadata update and the whole
`pollForResponse` loop are abstracted as `body`, an arbitrary state
transformer that either returns the response text or throws (timeout,
cancellation, tmux subprocess failure); the `try/finally` of the source
guarantees `releaseLock` runs on both outcomes. -/
def sendMessageLocks (sessionName : JSStr) (now : Nat)
    (body : LockStore → Except SendError JSStr × LockStore)
    (locks : LockStore) : Except SendError JSStr × LockStore :=
  match acquireLock sessionName now locks with
  | (none, locks') => (Except.error SendError.lockBusy, locks')
  | (some _, locks') =>
    let r := body locks'
    (r.1, releaseLock sessionName r.2)

/-! ## Keystroke injection (src/tmux/bridge.ts lines 280-283 and 398-409) -/

/-- `TmuxBridge.sendKeys`: the argument vector passed to tmux.  The exact
string "Enter" is sent as the named Enter key; any other text is sent with
the literal (`-l`, non-interpreted) flag. -/
def sendKeysArgs (target text : JSStr) : List JSStr :=
  if text = strL "Enter" then
    [strL "send-keys", strL "-t", target, strL "Enter"]
  else
    [strL "send-keys", strL "-t", target, strL "-l", text]

/-- The two tmux invocations `sendMessage` performs for a message
(`sendKeys(message); sendKeys("Enter")`, lines 282-283). -/
def sendMessageKeystrokes (target message : JSStr) : List (List JSStr) :=
  [sendKeysArgs target message, sendKeysArgs target (strL "Enter")]

/-- The payload a `send-keys` argument vector delivers literally: `sendKeys`
only ever builds the five-argument form `send-keys -t target -l text` (literal)
or the four-argument form `send-keys -t target Enter` (named key), so the
literal payload is the fifth argument when the fourth is the `-l` flag. -/
def literalPayload : List JSStr → Option JSStr
  | [a, _, _, d, e] => if a = strL "send-keys" ∧ d = strL "-l" then some e else none
  | _ => none

/-- All literal-flag payloads of a sequence of tmux invocations. -/
def literalPayloads (cmds : List (List JSStr)) : List JSStr :=
  cmds.filterMap literalPayload

/-! ## Session metadata registry (src/tmux/bridge.ts lines 63-166, 327-356,
224-248 and 692-731) -/

inductive CreatedBy where
  | telegram
  | cli
deriving DecidableEq, Repr

/-- A persisted session-metadata record (the value type of sessions.json as
written by `saveSessionMetadata`). -/
structure SessionMeta where
  createdBy : CreatedBy
  isOwned : Bool
  markedForExit : Bool
  markedAt : Option Nat
  lastActivity : Nat
deriving DecidableEq, Repr

/-- The content of the persisted session-metadata file (sessions.json). -/
abbrev SessionStore := List (JSStr × SessionMeta)

/-- `TmuxBridge.createSession`, viewed through its effect on the persisted
session store: the new session becomes the current one with
`createdBy: "telegram", isOwned: true, markedForExit: false` and
`saveSessionMetadata` writes exactly its entry. -/
def createSessionMeta (name : JSStr) (now : Nat) (store : SessionStore) :
    SessionStore :=
  setKey name ⟨CreatedBy.telegram, true, false, none, now⟩ store

/-- `TmuxBridge.attachToSession`, viewed through its effect on the persisted
session store: the target (rebuilt by `listSessions` from saved metadata,
defaulting `createdBy` to "cli" and flags to false) gets `isOwned := true`
and a fresh `lastActivity`, and `saveSessionMetadata` writes exactly its
entry.  No other entry is touched. -/
def attachToSessionMeta (name : JSStr) (now : Nat) (store : SessionStore) :
    SessionStore :=
  let saved := lookupKey name store
  let meta : SessionMeta :=
    { createdBy := (saved.map SessionMeta.createdBy).getD CreatedBy.cli
      isOwned := true
      markedForExit := (saved.map SessionMeta.markedForExit).getD false
      markedAt := (saved.map SessionMeta.markedAt).getD none
      lastActivity := now }
  setKey name meta store

/-- `TmuxBridge.markForExit`, viewed through its effect on the persisted
store, given the in-memory current session's name and record: a
telegram-created session is flagged for exit and disowned; a CLI session is
merely disowned. -/
def markForExitMeta (name : JSStr) (current : SessionMeta) (now : Nat)
    (store : SessionStore) : SessionStore :=
  if current.createdBy = CreatedBy.telegram then
    setKey name { current with markedForExit := true, markedAt := some now, isOwned := false } store
  else
    setKey name { current with isOwned := false } store

/-- `TmuxBridge.killSession`, viewed through its effect on the persisted
store: the session's entry is deleted. -/
def killSessionMeta (name : JSStr) (store : SessionStore) : SessionStore :=
  delKey name store

/-- Number of entries of the persisted store whose owned flag is set. -/
def ownedCount (store : SessionStore) : Nat :=
  (store.filter (fun kv => kv.2.isOwned)).length

/-! ## String primitives for the parser (src/tmux/parser.ts)

JavaScript regular expressions are evaluated on single lines (the parser
splits on `"\n"` before testing), so each pattern is embedded as a function
on one line; the tests below follow the regexes of `PATTERNS` character
class by character class. -/

/-- JavaScript's `\s` class (used by `trim()` and by `\s` in the patterns). -/
def jsWs (c : Char) : Bool :=
  c = ' ' || c = '\t' || c = '\n' || c.val = 11 || c.val = 12 || c = '\r' ||
  c.val = 0xa0 || c.val = 0x1680 || (0x2000 ≤ c.val && c.val ≤ 0x200a) ||
  c.val = 0x2028 || c.val = 0x2029 || c.val = 0x202f || c.val = 0x205f ||
  c.val = 0x3000 || c.val = 0xfeff

/-- `String.prototype.trim`. -/
def trimJS (l : JSStr) : JSStr :=
  ((l.dropWhile jsWs).reverse.dropWhile jsWs).reverse

/-- `str.split(sep)` for a one-character separator. -/
def splitOnChar (sep : Char) : JSStr → List JSStr
  | [] => [[]]
  | c :: rest =>
    match splitOnChar sep rest with
    | [] => [[]]
    | h :: t => if c = sep then [] :: h :: t else (c :: h) :: t

/-- `parts.join(sep)` for a one-character separator. -/
def joinChar (sep : Char) : List JSStr → JSStr
  | [] => []
  | [x] => x
  | x :: y :: t => x ++ sep :: joinChar sep (y :: t)

/-- `s.slice(-n)` for a positive count `n`: the last `n` code points (all of
`s` when `n` is at least its length). -/
def takeRight (l : JSStr) (n : Nat) : JSStr := l.drop (l.length - n)

/-- `s.lastIndexOf(sub)`: the greatest index at which `sub` occurs in `s`
(`none` for JS's `-1`). -/
def jsLastIndexOf (s sub : JSStr) : Option Nat :=
  ((List.range (s.length + 1)).filter (fun i => sub.isPrefixOf (s.drop i))).getLast?

/-- `s.lastIndexOf(sub)` as the JS number, `-1` when absent. -/
def jsLastIndexOfInt (s sub : JSStr) : Int :=
  match jsLastIndexOf s sub with
  | some i => (i : Int)
  | none => -1

/-- `s.includes(sub)`. -/
def jsIncludes (s sub : JSStr) : Bool :=
  (List.range (s.length + 1)).any (fun i => sub.isPrefixOf (s.drop i))

/-- Length of what the ANSI escape pattern of `PATTERNS.ANSI` matches right
after the ESC character: either a single character in the ranges 0x40-0x5a
or 0x5c-0x5f, or a CSI sequence — an opening bracket, parameter bytes
(0x30-0x3f), intermediate bytes (0x20-0x2f) and one final byte (0x40-0x7e).
`none` when the tail does not match.  The two alternatives are disjoint on
their first character and the three CSI classes are pairwise disjoint, so
the greedy match is deterministic. -/
def ansiTailLen (l : JSStr) : Option Nat :=
  match l with
  | [] => none
  | c :: rest =>
    if c = '[' then
      let ps := rest.takeWhile (fun d => 0x30 ≤ d.val && d.val ≤ 0x3f)
      let rest1 := rest.drop ps.length
      let is := rest1.takeWhile (fun d => 0x20 ≤ d.val && d.val ≤ 0x2f)
      let rest2 := rest1.drop is.length
      match rest2 with
      | d :: _ =>
        if 0x40 ≤ d.val && d.val ≤ 0x7e then some (1 + ps.length + is.length + 1)
        else none
      | [] => none
    else if (0x40 ≤ c.val && c.val ≤ 0x5a) || (0x5c ≤ c.val && c.val ≤ 0x5f) then
      some 1
    else none

/-- Left-to-right scan of `stripAnsi`, structurally recursive on a fuel that
bounds the number of scan steps (every step consumes at least one character,
so `stripAnsi` passes the input length and the first equation is never
reached). -/
def stripAnsiFuel : Nat → JSStr → JSStr
  | 0, l => l
  | _ + 1, [] => []
  | fuel + 1, c :: rest =>
    if c = '\x1b' then
      match ansiTailLen rest with
      | some n => stripAnsiFuel fuel (rest.drop n)
      | none => c :: stripAnsiFuel fuel rest
    else c :: stripAnsiFuel fuel rest

/-- `stripAnsi` (parser.ts line 102): delete every match of the ANSI escape
pattern, scanning left to right. -/
def stripAnsi (l : JSStr) : JSStr := stripAnsiFuel l.length l

/-- Per-line carriage-return handling of `cleanOutput` (parser.ts lines
118-126): a line containing `\r` keeps only the part after its last `\r`. -/
def processLineCR (line : JSStr) : JSStr :=
  if line.contains '\r' then (line.reverse.takeWhile (fun c => c ≠ '\r')).reverse
  else line

/-- `cleanOutput` (parser.ts line 109): strip ANSI codes, then process the
carriage returns of every line. -/
def cleanOutput (text : JSStr) : JSStr :=
  joinChar '\n' ((splitOnChar '\n' (stripAnsi text)).map processLineCR)

/-! ## Pattern tests (the `PATTERNS` table of parser.ts) -/

/-- Character class `[─━═]` of `SEPARATOR`. -/
def isSepChar (c : Char) : Bool := c = '─' || c = '━' || c = '═'

/-- Character class `[│├┤┬┴┼┌┐└┘─━═]` of `TABLE_BORDER`/`BOX_CHARS`. -/
def isBoxChar (c : Char) : Bool :=
  c = '│' || c = '├' || c = '┤' || c = '┬' || c = '┴' || c = '┼' ||
  c = '┌' || c = '┐' || c = '└' || c = '┘' || c = '─' || c = '━' || c = '═'

/-- Character class `[└│├─┬┴┼]` of the tool-output cleanup replace. -/
def isToolBox (c : Char) : Bool :=
  c = '└' || c = '│' || c = '├' || c = '─' || c = '┬' || c = '┴' || c = '┼'

/-- JavaScript's `\w` class. -/
def isWordChar (c : Char) : Bool :=
  ('a' ≤ c && c ≤ 'z') || ('A' ≤ c && c ≤ 'Z') || ('0' ≤ c && c ≤ '9') || c = '_'

/-- JavaScript's `\d` class. -/
def isDigitChar (c : Char) : Bool := '0' ≤ c && c ≤ '9'

/-- `SEPARATOR` = `/^[─━═]{5,}/m` on one line. -/
def sepTest (line : JSStr) : Bool := 5 ≤ (line.takeWhile isSepChar).length

/-- `TABLE_BORDER` = `/^[│├┤┬┴┼┌┐└┘─━═\s]+$/` on one line. -/
def tableBorderTest (l : JSStr) : Bool :=
  !l.isEmpty && l.all (fun c => isBoxChar c || jsWs c)

/-- `UI_CHROME` = `/^(▐|▝|▜|▛|▘|█|░|▒|▓|·\s|✢)/`. -/
def uiChromeTest (l : JSStr) : Bool :=
  match l with
  | [] => false
  | c :: rest =>
    c = '▐' || c = '▝' || c = '▜' || c = '▛' || c = '▘' || c = '█' ||
    c = '░' || c = '▒' || c = '▓' || c = '✢' ||
    (c = '·' && (match rest with | d :: _ => jsWs d | [] => false))

/-- `.replace(PATTERNS.BOX_CHARS, "|")`. -/
def mapBoxToPipe (l : JSStr) : JSStr :=
  l.map (fun c => if isBoxChar c then '|' else c)

/-- Run-collapsing scan for the pipe cleanup, structurally recursive on a
fuel that bounds the number of scan steps (each step consumes at least one
character, so `collapsePipeRuns` passes the input length and the first
equation is never reached). -/
def collapsePipeRunsFuel : Nat → JSStr → JSStr
  | 0, l => l
  | _ + 1, [] => []
  | fuel + 1, c :: rest =>
    if c = '|' then '|' :: collapsePipeRunsFuel fuel (rest.dropWhile (fun d => d = '|'))
    else c :: collapsePipeRunsFuel fuel rest

/-- `.replace(/\|{2,}/g, "|")`: collapse every run of pipes to one. -/
def collapsePipeRuns (l : JSStr) : JSStr := collapsePipeRunsFuel l.length l

/-- `.replace(/^\||\|$/g, "")`: remove a leading and a trailing pipe. -/
def stripEdgePipes (l : JSStr) : JSStr :=
  let l1 := match l with | '|' :: r => r | _ => l
  match l1.getLast? with
  | some c => if c = '|' then l1.dropLast else l1
  | none => l1

/-- The table-cell cleanup of parseContent (parser.ts lines 236-243). -/
def cleanBoxLine (l : JSStr) : JSStr :=
  trimJS (stripEdgePipes (collapsePipeRuns (mapBoxToPipe l)))

/-- The status-bar noise filter of parseContent (parser.ts lines 247-252). -/
def statusBarTest (l : JSStr) : Bool :=
  jsIncludes l (strL "for shortcuts") || jsIncludes l (strL "shift+tab to cycle") ||
  jsIncludes l (strL "esc to interrupt") || jsIncludes l (strL "Auto-update failed") ||
  jsIncludes l (strL "claude doctor") || jsIncludes l (strL "npm i -g")

/-- The tool names of `CLAUDE_TOOL`. -/
def toolNames : List JSStr :=
  [strL "Read", strL "Write", strL "Edit", strL "Bash", strL "Glob", strL "Grep",
   strL "WebFetch", strL "WebSearch", strL "Task", strL "TodoWrite",
   strL "NotebookEdit", strL "AskUserQuestion"]

/-- Character class `[●○◉◐]`. -/
def isToolBullet (c : Char) : Bool := c = '●' || c = '○' || c = '◉' || c = '◐'

/-- `CLAUDE_TOOL` = `/^[●○◉◐]\s*(Read|Write|...)/m` on one line. -/
def claudeToolTest (line : JSStr) : Bool :=
  match line with
  | c :: rest =>
    isToolBullet c && toolNames.any (fun n => n.isPrefixOf (rest.dropWhile jsWs))
  | [] => false

/-- `.replace(/^[●○◉◐]\s*/, "🔧 ")`. -/
def replaceToolBullet (t : JSStr) : JSStr :=
  match t with
  | c :: rest => if isToolBullet c then strL "🔧 " ++ rest.dropWhile jsWs else t
  | [] => t

/-- `TOOL_OUTPUT` = `/^[\s│└├─┬┴┼]+/`. -/
def toolOutputTest (line : JSStr) : Bool :=
  match line with
  | c :: _ => jsWs c || isToolBox c
  | [] => false

/-- `.replace(/^[└│├─┬┴┼]+\s*/, "  ")`. -/
def toolOutputClean (t : JSStr) : JSStr :=
  match t with
  | c :: _ =>
    if isToolBox c then strL "  " ++ (t.dropWhile isToolBox).dropWhile jsWs
    else t
  | [] => t

/-- `COLLAPSED` = `/^…\s*\+?\d+\s*lines?/` (the optional "s" can always match
nothing, so only the "line" prefix is required). -/
def collapsedTest (l : JSStr) : Bool :=
  match l with
  | c :: rest =>
    c = '…' &&
      (let r1 := rest.dropWhile jsWs
       let r2 := match r1 with | '+' :: rr => rr | _ => r1
       let ds := r2.takeWhile isDigitChar
       !ds.isEmpty && (strL "line").isPrefixOf ((r2.drop ds.length).dropWhile jsWs))
  | [] => false

/-- `EDIT_FILE` = `/^Edit\s+(file\s+)?[\w\/\.\-]+/`; since "file" starts with
a word character, the optional group never decides the test. -/
def editFileTest (l : JSStr) : Bool :=
  (strL "Edit").isPrefixOf l &&
    (match l.drop 4 with
     | c :: rest =>
       jsWs c &&
         (match rest.dropWhile jsWs with
          | d :: _ => isWordChar d || d = '/' || d = '.' || d = '-'
          | [] => false)
     | [] => false)

/-- `DIFF_LINE` = `/^\d+\s*[+\-]/`. -/
def diffLineTest (l : JSStr) : Bool :=
  let ds := l.takeWhile isDigitChar
  !ds.isEmpty &&
    (match (l.drop ds.length).dropWhile jsWs with
     | c :: _ => c = '+' || c = '-'
     | [] => false)

/-- The lower-cased alternatives of `PERMISSION_PROMPT` (an `/i` pattern). -/
def permissionPrompts : List JSStr :=
  [strL "do you want to", strL "allow", strL "approve", strL "confirm",
   strL "accept", strL "would you like to"]

/-- `PERMISSION_PROMPT` = `/^(Do you want to|Allow|...)/i`. -/
def permissionTest (l : JSStr) : Bool :=
  permissionPrompts.any (fun p => p.isPrefixOf (l.map Char.toLower))

/-- `MENU_OPTION` = `/^\s*[>\s]*\d+\.\s+/` (the two leading classes together
accept any mix of whitespace and `>`). -/
def menuOptionTest (line : JSStr) : Bool :=
  let r := line.dropWhile (fun c => jsWs c || c = '>')
  let ds := r.takeWhile isDigitChar
  !ds.isEmpty &&
    (match r.drop ds.length with
     | '.' :: c :: _ => jsWs c
     | _ => false)

/-- Match `/^M\s+(.+)/` for a marker character `M` and return the capture:
after the marker, `\s+` greedily takes the whitespace run and `(.+)` the
rest; when nothing remains, backtracking gives the last whitespace character
to the capture (so `"M  "` captures `" "`). -/
def markerCapture (marker : Char) (l : JSStr) : Option JSStr :=
  match l with
  | [] => none
  | c :: rest =>
    if c = marker then
      let w := rest.takeWhile jsWs
      let r := rest.dropWhile jsWs
      if w.isEmpty then none
      else if !r.isEmpty then some r
      else if 2 ≤ w.length then some (w.drop (w.length - 1))
      else none
    else none

/-- `PROCESSING` = `/^✽\s+.+/m` on one line. -/
def processingTest (line : JSStr) : Bool := (markerCapture '✽' line).isSome

/-- `USER_INPUT` = `/^❯\s+.+/m` on one line. -/
def userInputTest (line : JSStr) : Bool := (markerCapture '❯' line).isSome

/-- `PROMPT` = `/^❯\s*$/m` on one line. -/
def promptTest (line : JSStr) : Bool :=
  match line with
  | c :: rest => c = '❯' && rest.all jsWs
  | [] => false

/-- `PROMPT_RELAXED` = `/^❯/m` on one line. -/
def promptRelaxedTest (line : JSStr) : Bool :=
  match line with
  | c :: _ => c = '❯'
  | [] => false

/-- Character class of `TOOL_START`, read at code-point level.  (In the
engine the non-BMP emoji are two UTF-16 units so only `⚡` can actually head
a match; no claim depends on this pattern, and the code-point reading is the
source's evident intent.) -/
def toolStartEmoji (c : Char) : Bool :=
  c = '🔧' || c = '📁' || c = '📝' || c = '💻' || c = '🔍' || c = '🌐' || c = '⚡'

/-- `TOOL_START` = `/^[🔧📁📝💻🔍🌐⚡]\s*\w+/m` on one line. -/
def toolStartTest (line : JSStr) : Bool :=
  match line with
  | c :: rest =>
    toolStartEmoji c &&
      (match rest.dropWhile jsWs with
       | d :: _ => isWordChar d
       | [] => false)
  | [] => false

/-- `TOOL_RUNNING` = `/^(Running|Executing|Reading|Writing|Searching)/m`. -/
def toolRunningTest (line : JSStr) : Bool :=
  [strL "Running", strL "Executing", strL "Reading", strL "Writing",
   strL "Searching"].any (fun p => p.isPrefixOf line)

/-- `TOOL_END` = `/^(Done|✓|✅|Error:|⚠️|❌|Failed:)/m`. -/
def toolEndTest (line : JSStr) : Bool :=
  [strL "Done", strL "✓", strL "✅", strL "Error:", strL "⚠️", strL "❌",
   strL "Failed:"].any (fun p => p.isPrefixOf line)

/-- `ERROR` = `/^(Error:|❌|Failed:|⚠️\s*Error)/m` (the warning sign with its
variation selector is two code points). -/
def errorTest (line : JSStr) : Bool :=
  (strL "Error:").isPrefixOf line || (strL "❌").isPrefixOf line ||
  (strL "Failed:").isPrefixOf line ||
  ((strL "⚠️").isPrefixOf line &&
    (strL "Error").isPrefixOf ((line.drop 2).dropWhile jsWs))

/-- `USAGE` = `/^(Usage:|Tokens:|Cost:)/m`. -/
def usageTest (line : JSStr) : Bool :=
  [strL "Usage:", strL "Tokens:", strL "Cost:"].any (fun p => p.isPrefixOf line)

/-! ## The parser state machine (class TerminalOutputParser of parser.ts) -/

/-- `ParseState` of src/tmux/types.ts. -/
inductive ParseState where
  | idle
  | thinking
  | tool_use
  | text_output
  | waiting_input
  | complete
deriving DecidableEq, Repr

/-- The block types of `ParsedBlock` of src/tmux/types.ts. -/
inductive BlockType where
  | thinking
  | tool
  | text
  | prompt
  | error
deriving DecidableEq, Repr

/-- `ParsedBlock` of src/tmux/types.ts. -/
structure ParsedBlock where
  type : BlockType
  content : JSStr
deriving DecidableEq, Repr

/-- The private fields of `TerminalOutputParser`. -/
structure ParserState where
  state : ParseState
  buffer : JSStr
  processedLength : Nat
  blocks : List ParsedBlock
  textAccumulator : JSStr
  currentBlockContent : JSStr
  promptDetectedAt : Nat
  lastPromptCheck : Nat
deriving DecidableEq, Repr

/-- A freshly constructed `TerminalOutputParser`. -/
def initialParser : ParserState :=
  ⟨ParseState.idle, [], 0, [], [], [], 0, 0⟩

/-- The `(acc ? "\n" : "")` separator used by the accumulation sites. -/
def nlSep (acc : JSStr) : JSStr := if acc.isEmpty then [] else ['\n']

/-- The fields `parseContent` reads and writes per line (it never touches
`buffer` or `processedLength`). -/
structure LineCtx where
  state : ParseState
  textAccumulator : JSStr
  currentBlockContent : JSStr
  promptDetectedAt : Nat
deriving DecidableEq, Repr

/-- Tail of the line loop (parser.ts lines 333-408): user-input skip, empty
prompt, tool start, tool end, error, and the state-dependent accumulation
switch.  `tl` is the trimmed line and `cl` the box-cleaned line, precomputed
by `lineStep`. -/
def lineStepTail (now : Nat) (ctx : LineCtx) (line tl cl : JSStr) :
    List ParsedBlock × LineCtx :=
  if userInputTest line then ([], ctx)
  else if promptTest line then
    ((if !ctx.currentBlockContent.isEmpty then
        if ctx.state = ParseState.thinking then
          [⟨BlockType.thinking, trimJS ctx.currentBlockContent⟩]
        else if !(trimJS ctx.currentBlockContent).isEmpty then
          [⟨BlockType.text, trimJS ctx.currentBlockContent⟩]
        else []
      else []) ++ [⟨BlockType.prompt, tl⟩],
     { ctx with
         currentBlockContent := [],
         state := ParseState.complete,
         promptDetectedAt := now })
  else if toolStartTest line || toolRunningTest line then
    ((if !ctx.currentBlockContent.isEmpty && ctx.state = ParseState.thinking then
        [⟨BlockType.thinking, trimJS ctx.currentBlockContent⟩]
      else if !ctx.currentBlockContent.isEmpty then
        [⟨BlockType.text, trimJS ctx.currentBlockContent⟩]
      else []) ++ [⟨BlockType.tool, tl⟩],
     { ctx with currentBlockContent := [], state := ParseState.tool_use })
  else if ctx.state = ParseState.tool_use && toolEndTest line then
    ([⟨BlockType.tool, tl⟩] ++
       (if errorTest line then [⟨BlockType.error, tl⟩] else []),
     { ctx with state := ParseState.text_output })
  else if errorTest line then
    ([⟨BlockType.error, tl⟩], ctx)
  else
    match ctx.state with
    | ParseState.thinking =>
      ([], { ctx with
          currentBlockContent :=
            ctx.currentBlockContent ++ (nlSep ctx.currentBlockContent ++ cl) })
    | ParseState.tool_use =>
      (if !cl.isEmpty && !usageTest line then [⟨BlockType.tool, cl⟩] else [], ctx)
    | _ =>
      ([],
       { (if !cl.isEmpty && !usageTest line then
            { ctx with
                currentBlockContent :=
                  ctx.currentBlockContent ++ (nlSep ctx.currentBlockContent ++ cl),
                textAccumulator :=
                  ctx.textAccumulator ++ (nlSep ctx.textAccumulator ++ cl) }
          else ctx) with
         state := ParseState.text_output })

/-- Middle of the line loop (parser.ts lines 313-331): processing indicator
and the `⏺` response capture. -/
def lineStepMid (now : Nat) (ctx : LineCtx) (line tl cl : JSStr) :
    List ParsedBlock × LineCtx :=
  if processingTest line then
    ([⟨BlockType.thinking, tl⟩], { ctx with state := ParseState.thinking })
  else
    match markerCapture '⏺' line with
    | some responseText =>
      if !responseText.isEmpty then
        ([⟨BlockType.text, responseText⟩],
         { ctx with
             textAccumulator :=
               ctx.textAccumulator ++ (nlSep ctx.textAccumulator ++ responseText),
             currentBlockContent := responseText,
             state := ParseState.text_output })
      else ([], ctx)
    | none => lineStepTail now ctx line tl cl

/-- Tool-and-chrome part of the line loop (parser.ts lines 270-311): tool
output, collapsed content, file edits, diff lines, permission prompts and
menu options. -/
def lineStepOps (now : Nat) (ctx : LineCtx) (line tl cl : JSStr) :
    List ParsedBlock × LineCtx :=
  if ctx.state = ParseState.tool_use && toolOutputTest line then
    if !(trimJS (toolOutputClean tl)).isEmpty && !collapsedTest (toolOutputClean tl) then
      ([⟨BlockType.tool, toolOutputClean tl⟩], ctx)
    else ([], ctx)
  else if collapsedTest line then
    ([⟨BlockType.tool, strL "📄 " ++ tl⟩], ctx)
  else if editFileTest tl then
    ([⟨BlockType.tool, strL "📝 " ++ tl⟩], { ctx with state := ParseState.tool_use })
  else if diffLineTest tl then
    ([⟨BlockType.tool, cl⟩], ctx)
  else if permissionTest tl then
    ([⟨BlockType.text, strL "⚠️ " ++ tl⟩], { ctx with state := ParseState.waiting_input })
  else if menuOptionTest line then
    ([⟨BlockType.text, cl⟩], ctx)
  else lineStepMid now ctx line tl cl

/-- Head of the line loop (parser.ts lines 215-268) with the trimmed and
box-cleaned lines precomputed: the skip filters and Claude tool lines. -/
def lineStepMain (now : Nat) (ctx : LineCtx) (line tl cl : JSStr) (hasBox : Bool) :
    List ParsedBlock × LineCtx :=
  if tl.isEmpty || sepTest line then ([], ctx)
  else if tableBorderTest tl then ([], ctx)
  else if uiChromeTest tl then ([], ctx)
  else if hasBox && cl.isEmpty then ([], ctx)
  else if statusBarTest tl then ([], ctx)
  else if claudeToolTest line then
    ((if !ctx.currentBlockContent.isEmpty then
        [⟨BlockType.text, trimJS ctx.currentBlockContent⟩]
      else []) ++ [⟨BlockType.tool, replaceToolBullet tl⟩],
     { ctx with state := ParseState.tool_use, currentBlockContent := [] })
  else lineStepOps now ctx line tl cl

/-- One iteration of the line loop of `parseContent` (parser.ts lines
215-409): the emitted blocks and the updated fields. -/
def lineStep (now : Nat) (ctx : LineCtx) (line : JSStr) : List ParsedBlock × LineCtx :=
  let trimmedLine := trimJS line
  let hasBox := trimmedLine.any isBoxChar
  let cleanedLine := if hasBox then cleanBoxLine trimmedLine else trimmedLine
  lineStepMain now ctx line trimmedLine cleanedLine hasBox

/-- `parseContent` (parser.ts line 211): fold the line loop over the lines of
the new content, then append the emitted blocks to the stored block list. -/
def parseContent (p : ParserState) (content : JSStr) (now : Nat) :
    List ParsedBlock × ParserState :=
  let r := (splitOnChar '\n' content).foldl
    (fun acc line =>
      let s := lineStep now acc.2 line
      (acc.1 ++ s.1, s.2))
    (([] : List ParsedBlock),
     (⟨p.state, p.textAccumulator, p.currentBlockContent, p.promptDetectedAt⟩ : LineCtx))
  (r.1,
   { p with
       state := r.2.state,
       textAccumulator := r.2.textAccumulator,
       currentBlockContent := r.2.currentBlockContent,
       promptDetectedAt := r.2.promptDetectedAt,
       blocks := p.blocks ++ r.1 })

/-- The `Math.max` of the four bullet-marker last indices used by
`checkCompletion` (parser.ts lines 432-437). -/
def lastToolIdx (buffer : JSStr) : Int :=
  max (max (jsLastIndexOfInt buffer (strL "● ")) (jsLastIndexOfInt buffer (strL "○ ")))
    (max (jsLastIndexOfInt buffer (strL "◉ ")) (jsLastIndexOfInt buffer (strL "◐ ")))

/-- `checkCompletion` (parser.ts line 420): look for a prompt in the last
(trim-nonempty) lines of the whole buffer; during tool use a prompt that
follows the last tool marker but no later response does not complete; in
text-output state a separator together with a relaxed prompt in the last
four lines also completes. -/
def checkCompletion (p : ParserState) (buffer : JSStr) (now : Nat) : ParserState :=
  let lines := (splitOnChar '\n' buffer).filter (fun l => !(trimJS l).isEmpty)
  let lastLines := lines.drop (lines.length - 5)
  if lastLines.any promptTest then
    if p.state = ParseState.tool_use &&
        jsLastIndexOfInt buffer (strL "⏺") < lastToolIdx buffer then
      p
    else if p.state ≠ ParseState.complete then
      { p with state := ParseState.complete, promptDetectedAt := now }
    else p
  else if p.state = ParseState.text_output then
    let lastFew := lines.drop (lines.length - 4)
    if lastFew.any sepTest && lastFew.any promptRelaxedTest then
      { p with state := ParseState.complete, promptDetectedAt := now }
    else p
  else p

/-- `isComplete` (parser.ts line 471): complete state plus the 2-second
stability delay on `Date.now() - promptDetectedAt` (the subtraction is
truncated, matching JS where a negative difference also fails the test). -/
def isComplete (p : ParserState) (now : Nat) : Bool :=
  if p.state = ParseState.complete then decide (2000 ≤ now - p.promptDetectedAt)
  else false

/-- `getTextResponse` (parser.ts line 487): flush a pending accumulator into
the text accumulator (without clearing it — the source has no reset of
`currentBlockContent` here), return the trimmed accumulator; the pair also
carries the mutated parser. -/
def getTextResponse (p : ParserState) : JSStr × ParserState :=
  if !p.currentBlockContent.isEmpty then
    let acc := p.textAccumulator ++ (nlSep p.textAccumulator ++ p.currentBlockContent)
    (trimJS acc, { p with textAccumulator := acc })
  else (trimJS p.textAccumulator, p)

/-- `revokeCompletion` (parser.ts line 513). -/
def revokeCompletion (p : ParserState) : ParserState :=
  if p.state = ParseState.complete then
    { p with state := ParseState.text_output, promptDetectedAt := 0 }
  else p

/-- `resetProcessedLength` (parser.ts line 524). -/
def resetProcessedLength (p : ParserState) : ParserState :=
  { p with processedLength := 0, buffer := [] }

/-- `reset` (parser.ts line 532): every field back to its initial value. -/
def resetParser (_ : ParserState) : ParserState := initialParser

/-- The new processed-length cursor the displacement branch of `feed`
computes (parser.ts lines 164-175): the old buffer's tail of length
min(old length, new length, 500) is looked up in the new buffer; its last
occurrence rebases the cursor to just past the overlap, absence resets the
cursor to zero. -/
def displacementNewCursor (buffer cleaned : JSStr) : Nat :=
  let overlapLen := min (min buffer.length cleaned.length) 500
  let oldTail := takeRight buffer overlapLen
  match jsLastIndexOf cleaned oldTail with
  | some idx => idx + overlapLen
  | none => 0

/-- The tail of `feed` after the displacement check (parser.ts lines
184-199): without new content only completion is re-checked; otherwise the
content past the cursor is parsed and the buffer and cursor updated. -/
def feedParse (p : ParserState) (cleaned : JSStr) (now : Nat) :
    List ParsedBlock × ParserState :=
  if cleaned.length ≤ p.processedLength then
    ([], checkCompletion p cleaned now)
  else
    let newContent := cleaned.drop p.processedLength
    let p1 := { p with processedLength := cleaned.length, buffer := cleaned }
    let r := parseContent p1 newContent now
    (r.1, checkCompletion r.2 cleaned now)

/-- `feed` (parser.ts line 153): clean the raw capture; when the cleaned
text did not grow past the cursor and a buffer exists, equal 200-character
tails mean no change (only completion is re-checked) while differing tails
on nonempty input mean displacement (the cursor is rebased by
`displacementNewCursor` before the normal path continues). -/
def feed (p : ParserState) (rawOutput : JSStr) (now : Nat) :
    List ParsedBlock × ParserState :=
  let cleaned := cleanOutput rawOutput
  if cleaned.length ≤ p.processedLength ∧ p.buffer ≠ [] then
    if takeRight p.buffer 200 ≠ takeRight cleaned 200 ∧ 0 < cleaned.length then
      feedParse { p with processedLength := displacementNewCursor p.buffer cleaned }
        cleaned now
    else
      ([], checkCompletion p cleaned now)
  else
    feedParse p cleaned now

/-! ## Association-store lemmas -/

@[simp]
theorem lookupKey_delKey_self (k : JSStr) (s : List (JSStr × α)) :
    lookupKey k (delKey k s) = none := by
  induction s with
  | nil => rfl
  | cons kv rest ih =>
    obtain ⟨k', v'⟩ := kv
    by_cases h : k' = k
    · simp [delKey, h, ih]
    · simp [delKey, lookupKey, h, ih]

@[simp]
theorem lookupKey_setKey_self (k : JSStr) (v : α) (s : List (JSStr × α)) :
    lookupKey k (setKey k v s) = some v := by
  induction s with
  | nil => simp [setKey, lookupKey]
  | cons kv rest ih =>
    obtain ⟨k', v'⟩ := kv
    by_cases h : k' = k
    · simp [setKey, h, lookupKey]
    · simp [setKey, lookupKey, h, ih]

theorem lookupKey_setKey_ne (k k' : JSStr) (v : α) (s : List (JSStr × α))
    (h : k' ≠ k) : lookupKey k' (setKey k v s) = lookupKey k' s := by
  induction s with
  | nil => simp [setKey, lookupKey, Ne.symm h]
  | cons kv rest ih =>
    obtain ⟨k₀, v₀⟩ := kv
    by_cases h0 : k₀ = k
    · subst h0
      simp [setKey, lookupKey, Ne.symm h]
    · simp only [setKey, if_neg h0, lookupKey]
      by_cases h1 : k₀ = k'
      · simp [h1]
      · simp [h1, ih]

/-! ## Lemmas about the string primitives -/

theorem map_id_of_mem {α : Type _} (f : α → α) (l : List α)
    (h : ∀ a ∈ l, f a = a) : l.map f = l := by
  induction l with
  | nil => rfl
  | cons a t ih =>
    simp only [List.map_cons, h a (by simp), ih (fun b hb => h b (by simp [hb]))]

theorem splitOnChar_ne_nil (sep : Char) (l : JSStr) : splitOnChar sep l ≠ [] := by
  cases l with
  | nil => simp [splitOnChar]
  | cons c rest =>
    simp only [splitOnChar]
    cases hs : splitOnChar sep rest with
    | nil => simp
    | cons h t => by_cases hc : c = sep <;> simp [hc]

theorem joinChar_splitOnChar (sep : Char) (l : JSStr) :
    joinChar sep (splitOnChar sep l) = l := by
  induction l with
  | nil => rfl
  | cons c rest ih =>
    simp only [splitOnChar]
    cases hs : splitOnChar sep rest with
    | nil => exact absurd hs (splitOnChar_ne_nil sep rest)
    | cons h t =>
      rw [hs] at ih
      dsimp only
      by_cases hc : c = sep
      · subst hc
        rw [if_pos rfl]
        simp only [joinChar, List.nil_append]
        rw [ih]
      · rw [if_neg hc]
        cases t with
        | nil =>
          simp only [joinChar] at ih ⊢
          rw [ih]
        | cons y t' =>
          simp only [joinChar] at ih ⊢
          rw [List.cons_append, ih]

theorem mem_of_mem_splitOnChar (sep : Char) (l : JSStr) (piece : JSStr)
    (hp : piece ∈ splitOnChar sep l) (c : Char) (hc : c ∈ piece) : c ∈ l := by
  induction l generalizing piece with
  | nil =>
    simp only [splitOnChar, List.mem_singleton] at hp
    subst hp
    simp at hc
  | cons a rest ih =>
    simp only [splitOnChar] at hp
    cases hs : splitOnChar sep rest with
    | nil => exact absurd hs (splitOnChar_ne_nil sep rest)
    | cons h t =>
      rw [hs] at hp
      dsimp only at hp
      by_cases ha : a = sep
      · rw [if_pos ha] at hp
        rcases List.mem_cons.mp hp with rfl | hp'
        · simp at hc
        · exact List.mem_cons_of_mem a (ih piece (by rw [hs]; exact hp') hc)
      · rw [if_neg ha] at hp
        rcases List.mem_cons.mp hp with rfl | hp'
        · rcases List.mem_cons.mp hc with rfl | hc'
          · exact List.mem_cons_self _ _
          · exact List.mem_cons_of_mem a
              (ih h (by rw [hs]; exact List.mem_cons_self h t) hc')
        · exact List.mem_cons_of_mem a
            (ih piece (by rw [hs]; exact List.mem_cons_of_mem h hp') hc)

theorem stripAnsiFuel_of_noEsc (fuel : Nat) (l : JSStr) (h : ∀ c ∈ l, c ≠ '\x1b') :
    stripAnsiFuel fuel l = l := by
  induction fuel generalizing l with
  | zero => rfl
  | succ fuel ih =>
    cases l with
    | nil => rfl
    | cons c rest =>
      rw [stripAnsiFuel, if_neg (h c (by simp)), ih rest (fun d hd => h d (by simp [hd]))]

theorem stripAnsi_of_noEsc (l : JSStr) (h : ∀ c ∈ l, c ≠ '\x1b') :
    stripAnsi l = l :=
  stripAnsiFuel_of_noEsc l.length l h

theorem processLineCR_of_noCR (line : JSStr) (h : ∀ c ∈ line, c ≠ '\r') :
    processLineCR line = line := by
  unfold processLineCR
  rw [if_neg]
  intro hmem
  exact h '\r' (List.elem_iff.mp hmem) rfl

theorem cleanOutput_of_clean (l : JSStr) (h : ∀ c ∈ l, c ≠ '\x1b' ∧ c ≠ '\r') :
    cleanOutput l = l := by
  unfold cleanOutput
  rw [stripAnsi_of_noEsc l (fun c hc => (h c hc).1)]
  rw [map_id_of_mem processLineCR (splitOnChar '\n' l) (fun piece hp =>
    processLineCR_of_noCR piece (fun c hc =>
      (h c (mem_of_mem_splitOnChar '\n' l piece hp c hc)).2))]
  exact joinChar_splitOnChar '\n' l

theorem takeRight_length (l : JSStr) (n : Nat) :
    (takeRight l n).length = min n l.length := by
  simp only [takeRight, List.length_drop]
  omega

theorem takeRight_all (l : JSStr) (n : Nat) (h : l.length ≤ n) :
    takeRight l n = l := by
  simp [takeRight, Nat.sub_eq_zero_of_le h]

theorem takeRight_of_suffix (T1 T2 : JSStr) (hsuf : T2 <:+ T1) (n : Nat)
    (hn : n ≤ T2.length) : takeRight T2 n = takeRight T1 n := by
  obtain ⟨u, rfl⟩ := hsuf
  simp only [takeRight, List.length_append]
  rw [show u.length + T2.length - n = u.length + (T2.length - n) by omega,
    List.drop_append]

theorem takeRight_self_of_suffix (T1 T2 : JSStr) (hsuf : T2 <:+ T1) :
    takeRight T1 T2.length = T2 := by
  rw [← takeRight_of_suffix T1 T2 hsuf T2.length le_rfl]
  exact takeRight_all T2 T2.length le_rfl

theorem getLast?_filter_range_spec (p : Nat → Bool) (n : Nat) :
    (((List.range n).filter p).getLast? = none → ∀ i, i < n → p i = false) ∧
    (∀ i, ((List.range n).filter p).getLast? = some i →
      p i = true ∧ i < n ∧ ∀ j, j < n → p j = true → j ≤ i) := by
  induction n with
  | zero => simp
  | succ n ih =>
    rw [List.range_succ, List.filter_append]
    by_cases hp : p n
    · have hfl : List.filter p [n] = [n] := by simp [hp]
      rw [hfl, List.getLast?_concat]
      refine ⟨fun hcontra => by simp at hcontra, ?_⟩
      intro i hi
      obtain rfl : n = i := by simpa using hi
      exact ⟨hp, Nat.lt_succ_self n, fun j hj _ => Nat.lt_succ_iff.mp hj⟩
    · have hfl : List.filter p [n] = [] := by simp [hp]
      rw [hfl, List.append_nil]
      refine ⟨fun hnone i hi => ?_, fun i hsome => ?_⟩
      · rcases Nat.lt_succ_iff_lt_or_eq.mp hi with hi' | rfl
        · exact ih.1 hnone i hi'
        · exact Bool.eq_false_iff.mpr hp
      · obtain ⟨h1, h2, h3⟩ := ih.2 i hsome
        refine ⟨h1, Nat.lt_succ_of_lt h2, fun j hj hpj => ?_⟩
        rcases Nat.lt_succ_iff_lt_or_eq.mp hj with hj' | rfl
        · exact h3 j hj' hpj
        · exact absurd hpj (Bool.eq_false_iff.mp (Bool.eq_false_iff.mpr hp))

theorem jsLastIndexOf_none_iff (s sub : JSStr) :
    jsLastIndexOf s sub = none ↔ ∀ i, i ≤ s.length → ¬ sub <+: s.drop i := by
  unfold jsLastIndexOf
  constructor
  · intro h i hi
    have := (getLast?_filter_range_spec (fun i => sub.isPrefixOf (s.drop i))
      (s.length + 1)).1 h i (by omega)
    intro hpre
    rw [(List.isPrefixOf_iff_prefix).mpr hpre] at this
    simp at this
  · intro h
    rw [List.getLast?_eq_none_iff, List.filter_eq_nil_iff]
    intro i hi
    simp only [List.mem_range] at hi
    intro hpf
    exact h i (by omega) (List.isPrefixOf_iff_prefix.mp hpf)

theorem jsLastIndexOf_some_spec (s sub : JSStr) (i : Nat)
    (h : jsLastIndexOf s sub = some i) :
    i ≤ s.length ∧ sub <+: s.drop i ∧
      ∀ j, j ≤ s.length → sub <+: s.drop j → j ≤ i := by
  unfold jsLastIndexOf at h
  obtain ⟨h1, h2, h3⟩ := (getLast?_filter_range_spec
    (fun i => sub.isPrefixOf (s.drop i)) (s.length + 1)).2 i h
  refine ⟨by omega, List.isPrefixOf_iff_prefix.mp h1, fun j hj hpre => ?_⟩
  exact h3 j (by omega) (List.isPrefixOf_iff_prefix.mpr hpre)

theorem jsLastIndexOf_self (s : JSStr) : jsLastIndexOf s s = some 0 := by
  cases h : jsLastIndexOf s s with
  | none =>
    exact absurd ((jsLastIndexOf_none_iff s s).mp h 0 (by omega))
      (by simp)
  | some i =>
    obtain ⟨h1, h2, _⟩ := jsLastIndexOf_some_spec s s i h
    have hle := h2.length_le
    rw [List.length_drop] at hle
    obtain rfl : i = 0 := by omega
    rfl

/-! ## Frame lemmas for the parser state machine -/

theorem checkCompletion_frame (p : ParserState) (b : JSStr) (now : Nat) :
    (checkCompletion p b now).buffer = p.buffer ∧
    (checkCompletion p b now).processedLength = p.processedLength ∧
    (checkCompletion p b now).blocks = p.blocks ∧
    (checkCompletion p b now).textAccumulator = p.textAccumulator ∧
    (checkCompletion p b now).currentBlockContent = p.currentBlockContent := by
  unfold checkCompletion
  dsimp only
  split
  · split
    · simp
    · split <;> simp
  · split
    · split <;> simp
    · simp

theorem getTextResponse_val_congr (p q : ParserState)
    (hacc : p.textAccumulator = q.textAccumulator)
    (hcbc : p.currentBlockContent = q.currentBlockContent) :
    (getTextResponse p).1 = (getTextResponse q).1 := by
  unfold getTextResponse
  rw [hacc, hcbc]
  split <;> simp

theorem lineStepTail_acc_extends (now : Nat) (ctx : LineCtx) (line tl cl : JSStr) :
    ctx.textAccumulator <+: (lineStepTail now ctx line tl cl).2.textAccumulator := by
  unfold lineStepTail
  repeat' split
  all_goals first
    | exact List.prefix_rfl
    | exact List.prefix_append _ _

theorem lineStepMid_acc_extends (now : Nat) (ctx : LineCtx) (line tl cl : JSStr) :
    ctx.textAccumulator <+: (lineStepMid now ctx line tl cl).2.textAccumulator := by
  unfold lineStepMid
  repeat' split
  all_goals first
    | exact List.prefix_rfl
    | exact List.prefix_append _ _
    | exact lineStepTail_acc_extends now ctx line tl cl

theorem lineStepOps_acc_extends (now : Nat) (ctx : LineCtx) (line tl cl : JSStr) :
    ctx.textAccumulator <+: (lineStepOps now ctx line tl cl).2.textAccumulator := by
  unfold lineStepOps
  repeat' split
  all_goals first
    | exact List.prefix_rfl
    | exact List.prefix_append _ _
    | exact lineStepMid_acc_extends now ctx line tl cl

theorem lineStepMain_acc_extends (now : Nat) (ctx : LineCtx) (line tl cl : JSStr)
    (hasBox : Bool) :
    ctx.textAccumulator <+: (lineStepMain now ctx line tl cl hasBox).2.textAccumulator := by
  unfold lineStepMain
  repeat' split
  all_goals first
    | exact List.prefix_rfl
    | exact List.prefix_append _ _
    | exact lineStepOps_acc_extends now ctx line tl cl

theorem lineStep_acc_extends (now : Nat) (ctx : LineCtx) (line : JSStr) :
    ctx.textAccumulator <+: (lineStep now ctx line).2.textAccumulator := by
  unfold lineStep
  exact lineStepMain_acc_extends now ctx line _ _ _

theorem foldl_lineStep_acc_extends (now : Nat) (lines : List JSStr)
    (init : List ParsedBlock × LineCtx) :
    init.2.textAccumulator <+:
      ((lines.foldl (fun acc line =>
        let s := lineStep now acc.2 line
        (acc.1 ++ s.1, s.2)) init).2.textAccumulator) := by
  induction lines generalizing init with
  | nil => exact List.prefix_rfl
  | cons l ls ih =>
    simp only [List.foldl_cons]
    exact (lineStep_acc_extends now init.2 l).trans
      (ih (init.1 ++ (lineStep now init.2 l).1, (lineStep now init.2 l).2))

theorem parseContent_acc_extends (p : ParserState) (content : JSStr) (now : Nat) :
    p.textAccumulator <+: (parseContent p content now).2.textAccumulator := by
  unfold parseContent
  exact foldl_lineStep_acc_extends now (splitOnChar '\n' content)
    ([], ⟨p.state, p.textAccumulator, p.currentBlockContent, p.promptDetectedAt⟩)

theorem parseContent_frame (p : ParserState) (content : JSStr) (now : Nat) :
    (parseContent p content now).2.buffer = p.buffer ∧
    (parseContent p content now).2.processedLength = p.processedLength := by
  unfold parseContent
  exact ⟨rfl, rfl⟩

theorem feedParse_acc_extends (p : ParserState) (cleaned : JSStr) (now : Nat) :
    p.textAccumulator <+: (feedParse p cleaned now).2.textAccumulator := by
  unfold feedParse
  split
  · rw [(checkCompletion_frame p cleaned now).2.2.2.1]
  · dsimp only
    rw [(checkCompletion_frame _ _ _).2.2.2.1]
    exact parseContent_acc_extends _ _ now

theorem feed_acc_extends (p : ParserState) (input : JSStr) (now : Nat) :
    p.textAccumulator <+: (feed p input now).2.textAccumulator := by
  unfold feed
  dsimp only
  split
  · split
    · exact feedParse_acc_extends
        { p with processedLength := displacementNewCursor p.buffer (cleanOutput input) }
        (cleanOutput input) now
    · rw [(checkCompletion_frame p _ now).2.2.2.1]
  · exact feedParse_acc_extends p (cleanOutput input) now

/-! ## Claim C7: acquire semantics -/

/-- C7: `acquireLock` refuses — returning no lock and leaving the persisted
lock set unchanged — exactly when a lock for the identity exists whose expiry
is still strictly in the future; otherwise it grants a lock acquired at `now`
expiring at `now + TMUX_LOCK_TIMEOUT` and persists it under the identity. -/
theorem C7_acquire_refuses_iff_held (name : JSStr) (now : Nat) (locks : LockStore) :
    ((acquireLock name now locks).1 = none ↔
      ∃ l, lookupKey name locks = some l ∧ now < l.expiresAt) ∧
    ((acquireLock name now locks).1 = none → (acquireLock name now locks).2 = locks) ∧
    (∀ l, (acquireLock name now locks).1 = some l →
      l.acquiredAt = now ∧ l.expiresAt = now + TMUX_LOCK_TIMEOUT ∧
      lookupKey name (acquireLock name now locks).2 = some l) := by
  unfold acquireLock
  cases h : lookupKey name locks with
  | none =>
    refine ⟨by simp [h], by simp, ?_⟩
    intro l hl
    simp only [Option.some.injEq] at hl
    subst hl
    simp
  | some l0 =>
    by_cases hlt : now < l0.expiresAt
    · refine ⟨by simp [h, hlt], by simp [hlt], ?_⟩
      intro l hl
      simp [hlt] at hl
    · refine ⟨by simp [h, hlt], by simp [hlt], ?_⟩
      intro l hl
      simp only [hlt, if_false, Option.some.injEq] at hl
      subst hl
      simp [hlt]

/-! ## Claim C6: lock always released by sendMessage -/

/-- C6: on every exit path of `sendMessage` after the lock has been acquired —
normal completion, timeout, cancellation, or any thrown error inside the
keystroke/polling body — the `finally` block releases the lock, so the
session's entry is absent from the persisted lock set when `sendMessage`
returns or throws.  `body` ranges over every possible behaviour of the
guarded region. -/
theorem C6_lock_released_on_every_exit (name : JSStr) (now : Nat)
    (body : LockStore → Except SendError JSStr × LockStore) (locks : LockStore)
    (h : (acquireLock name now locks).1.isSome = true) :
    lookupKey name (sendMessageLocks name now body locks).2 = none := by
  unfold sendMessageLocks
  rcases hacq : acquireLock name now locks with ⟨fst, locks'⟩
  cases fst with
  | none => rw [hacq] at h; simp at h
  | some l => simp [releaseLock]

/-- Witness for C6: with an empty lock store the lock is acquired, and after a
body that throws a timeout the lock entry is gone. -/
theorem C6_lock_released_witness :
    (acquireLock (strL "s") 0 []).1.isSome = true ∧
    lookupKey (strL "s")
      (sendMessageLocks (strL "s") 0
        (fun l => (Except.error SendError.timeout, l)) []).2 = none :=
  ⟨by decide, C6_lock_released_on_every_exit (strL "s") 0
    (fun l => (Except.error SendError.timeout, l)) [] (by decide)⟩

/-! ## Claim C8: acquire does not purge other identities -/

/-- C8 counterexample: with two expired locks persisted, acquiring for
identity "a" grants, yet the expired lock of identity "b" is still in the
persisted store afterwards — the claim that no expired lock (including other
identities') survives an acquire is false. -/
theorem C8_no_purge_counterexample :
    ((acquireLock (strL "a") 100
        [(strL "a", ⟨strL "a", 5, 10, strL "x"⟩),
         (strL "b", ⟨strL "b", 5, 10, strL "x"⟩)]).1.isSome = true) ∧
    (lookupKey (strL "b")
        (acquireLock (strL "a") 100
          [(strL "a", ⟨strL "a", 5, 10, strL "x"⟩),
           (strL "b", ⟨strL "b", 5, 10, strL "x"⟩)]).2 =
      some ⟨strL "b", 5, 10, strL "x"⟩) ∧
    (10 : Nat) ≤ 100 := by decide

/-- C8 amended: an acquire call is not a purge — it leaves every other
identity's lock entry, expired or not, exactly as it was; only the requested
identity's entry is possibly replaced (and on refusal nothing is written). -/
theorem C8_acquire_leaves_other_entries (name name' : JSStr) (now : Nat)
    (locks : LockStore) (h : name' ≠ name) :
    lookupKey name' (acquireLock name now locks).2 = lookupKey name' locks := by
  unfold acquireLock
  cases hl : lookupKey name locks with
  | none => simpa using lookupKey_setKey_ne name name' _ locks h
  | some l =>
    by_cases hlt : now < l.expiresAt
    · simp [hlt]
    · simpa [hlt] using lookupKey_setKey_ne name name' _ locks h

/-- Witness for the amended C8: acquiring "a" leaves the expired "b" entry
untouched. -/
theorem C8_acquire_leaves_other_entries_witness :
    (strL "b" ≠ strL "a") ∧
    lookupKey (strL "b")
        (acquireLock (strL "a") 100 [(strL "b", ⟨strL "b", 5, 10, strL "x"⟩)]).2 =
      lookupKey (strL "b") [(strL "b", (⟨strL "b", 5, 10, strL "x"⟩ : TmuxLock))] :=
  ⟨by decide, C8_acquire_leaves_other_entries (strL "a") (strL "b") 100
    [(strL "b", ⟨strL "b", 5, 10, strL "x"⟩)] (by decide)⟩

/-! ## Claim C9: the at-most-one-owned invariant -/

/-- C9 counterexample: attaching to session "a" and then to session "b"
(with no intervening `markForExit`) leaves two entries of the persisted
session store marked owned, so "at most one session owned after any sequence
of bridge operations" is false. -/
theorem C9_two_owned_counterexample :
    ownedCount (attachToSessionMeta (strL "b") 1
      (attachToSessionMeta (strL "a") 0 [])) = 2 := by decide

/-- C9 amended: `createSession` and `attachToSession` mark the target session
owned in the persisted store and leave every other session's entry — in
particular a previously owned one — exactly as it was; the at-most-one-owned
invariant is maintained only by sequences that disown (markForExit) or kill
the owned session before the next create/attach. -/
theorem C9_attach_create_keep_other_entries (name name' : JSStr) (now : Nat)
    (store : SessionStore) (h : name' ≠ name) :
    lookupKey name' (attachToSessionMeta name now store) = lookupKey name' store ∧
    lookupKey name' (createSessionMeta name now store) = lookupKey name' store ∧
    (∀ m, lookupKey name (attachToSessionMeta name now store) = some m →
      m.isOwned = true) ∧
    (∀ m, lookupKey name (createSessionMeta name now store) = some m →
      m.isOwned = true) := by
  refine ⟨lookupKey_setKey_ne _ _ _ _ h, lookupKey_setKey_ne _ _ _ _ h, ?_, ?_⟩
  · intro m hm
    unfold attachToSessionMeta at hm
    rw [lookupKey_setKey_self] at hm
    cases hm
    rfl
  · intro m hm
    unfold createSessionMeta at hm
    rw [lookupKey_setKey_self] at hm
    cases hm
    rfl

/-- Witness for the amended C9: attaching to "a" leaves the owned entry of
"b" untouched (and "a" becomes owned). -/
theorem C9_attach_create_keep_other_entries_witness :
    (strL "b" ≠ strL "a") ∧
    (lookupKey (strL "b")
        (attachToSessionMeta (strL "a") 7
          [(strL "b", ⟨CreatedBy.cli, true, false, none, 0⟩)]) =
      lookupKey (strL "b")
        [(strL "b", (⟨CreatedBy.cli, true, false, none, 0⟩ : SessionMeta))] ∧
     lookupKey (strL "b")
        (createSessionMeta (strL "a") 7
          [(strL "b", ⟨CreatedBy.cli, true, false, none, 0⟩)]) =
      lookupKey (strL "b")
        [(strL "b", (⟨CreatedBy.cli, true, false, none, 0⟩ : SessionMeta))] ∧
     (∀ m, lookupKey (strL "a")
        (attachToSessionMeta (strL "a") 7
          [(strL "b", ⟨CreatedBy.cli, true, false, none, 0⟩)]) = some m →
        m.isOwned = true) ∧
     (∀ m, lookupKey (strL "a")
        (createSessionMeta (strL "a") 7
          [(strL "b", ⟨CreatedBy.cli, true, false, none, 0⟩)]) = some m →
        m.isOwned = true)) :=
  ⟨by decide, C9_attach_create_keep_other_entries (strL "a") (strL "b") 7
    [(strL "b", ⟨CreatedBy.cli, true, false, none, 0⟩)] (by decide)⟩

/-! ## Claim C10: literal keystroke injection -/

/-- C10: every message is injected with tmux's literal (`-l`) flag except the
exact string "Enter", which is sent as the named Enter keypress — over the
whole keystroke sequence of `sendMessage`, the literal payloads are exactly
`[message]` for any other message and empty for "Enter", so the literal
string "Enter" is never deliverable as message content. -/
theorem C10_literal_except_enter (target message : JSStr) :
    literalPayloads (sendMessageKeystrokes target message) =
      (if message = strL "Enter" then [] else [message]) ∧
    strL "Enter" ∉ literalPayloads (sendMessageKeystrokes target message) := by
  by_cases h : message = strL "Enter"
  · simp [sendMessageKeystrokes, sendKeysArgs, literalPayloads, literalPayload, h]
  · simp [sendMessageKeystrokes, sendKeysArgs, literalPayloads, literalPayload, h,
      Ne.symm h]

/-! ## Claim C3: reset leaves the completion check false -/

/-- C3: immediately after `reset()` the completion check returns false at
every current time, even though the prompt timestamp is left at its zero
sentinel — the reset state is `idle`, so the zero timestamp can never make
the elapsed-since-epoch value pass the 2-second stability threshold. -/
theorem C3_reset_never_complete (p : ParserState) (now : Nat) :
    (resetParser p).promptDetectedAt = 0 ∧ isComplete (resetParser p) now = false :=
  ⟨rfl, rfl⟩

/-! ## Claim C2: getTextResponse is not idempotent (code bug) -/

/-- C2 evaluated at the failing input: after feeding the single response line
"⏺ hi", the pending accumulator "hi" is flushed but never cleared, so the
first `getTextResponse` returns "hi\nhi" and the second returns
"hi\nhi\nhi" — two consecutive calls disagree, contradicting the specified
idempotent drain. -/
theorem C2_drain_not_idempotent_eval :
    (getTextResponse (feed initialParser (strL "⏺ hi") 0).2).1 = strL "hi\nhi" ∧
    (getTextResponse (getTextResponse (feed initialParser (strL "⏺ hi") 0).2).2).1 =
      strL "hi\nhi\nhi" ∧
    (getTextResponse (feed initialParser (strL "⏺ hi") 0).2).1 ≠
      (getTextResponse (getTextResponse (feed initialParser (strL "⏺ hi") 0).2).2).1 := by
  decide

/-! ## Claim C4: completion revocation resumes accumulation -/

/-- C4: from a parser that has reached the complete state, `revokeCompletion`
reverts to `text_output` with the prompt timestamp cleared to zero while
keeping the accumulated text and blocks, and any further feed only extends
the text accumulator — the pre-revocation text stays a prefix of the final
accumulated text. -/
theorem C4_revocation_resumes (p : ParserState)
    (h : p.state = ParseState.complete) (input : JSStr) (now : Nat) :
    (revokeCompletion p).state = ParseState.text_output ∧
    (revokeCompletion p).promptDetectedAt = 0 ∧
    (revokeCompletion p).textAccumulator = p.textAccumulator ∧
    (revokeCompletion p).blocks = p.blocks ∧
    p.textAccumulator <+: (feed (revokeCompletion p) input now).2.textAccumulator := by
  have hr : revokeCompletion p =
      { p with state := ParseState.text_output, promptDetectedAt := 0 } := by
    unfold revokeCompletion
    rw [if_pos h]
  have hacc : (revokeCompletion p).textAccumulator = p.textAccumulator := by rw [hr]
  refine ⟨by rw [hr], by rw [hr], hacc, by rw [hr], ?_⟩
  have hext := feed_acc_extends (revokeCompletion p) input now
  rw [hacc] at hext
  exact hext

/-- Witness for C4: a parser completed by "⏺ hi" then a prompt line, revoked,
then fed a tool invocation and a further response; the final text contains
the content of both phases ("hi" before, "more" after). -/
theorem C4_revocation_witness :
    (feed initialParser (strL "⏺ hi\n❯") 5).2.state = ParseState.complete ∧
    ((revokeCompletion (feed initialParser (strL "⏺ hi\n❯") 5).2).state =
        ParseState.text_output ∧
      (revokeCompletion (feed initialParser (strL "⏺ hi\n❯") 5).2).promptDetectedAt = 0 ∧
      (revokeCompletion (feed initialParser (strL "⏺ hi\n❯") 5).2).textAccumulator =
        (feed initialParser (strL "⏺ hi\n❯") 5).2.textAccumulator ∧
      (revokeCompletion (feed initialParser (strL "⏺ hi\n❯") 5).2).blocks =
        (feed initialParser (strL "⏺ hi\n❯") 5).2.blocks ∧
      (feed initialParser (strL "⏺ hi\n❯") 5).2.textAccumulator <+:
        (feed (revokeCompletion (feed initialParser (strL "⏺ hi\n❯") 5).2)
          (strL "⏺ hi\n❯\n● Read x\n⏺ more") 9).2.textAccumulator) ∧
    (getTextResponse (feed (revokeCompletion (feed initialParser (strL "⏺ hi\n❯") 5).2)
        (strL "⏺ hi\n❯\n● Read x\n⏺ more") 9).2).1 = strL "hi\nmore\nmore" :=
  ⟨by decide,
   C4_revocation_resumes (feed initialParser (strL "⏺ hi\n❯") 5).2 (by decide)
     (strL "⏺ hi\n❯\n● Read x\n⏺ more") 9,
   by decide⟩

/-! ## Claim C5: displacement recovery -/

/-- C5 counterexample: with old buffer "xy" (a state reached by an actual
feed) and new buffer "yz", the displacement conditions hold and the code
resets the cursor to zero — even though "y", a nonempty suffix of the old
buffer, does occur in the new buffer.  This refutes "resets the cursor to
zero only when no suffix of the old buffer appears in the new buffer". -/
theorem C5_reset_despite_overlap_counterexample :
    displacementNewCursor (strL "xy") (strL "yz") = 0 ∧
    strL "y" ≠ [] ∧ strL "y" <:+ strL "xy" ∧ strL "y" <+: (strL "yz").drop 0 ∧
    (feed initialParser (strL "xy") 0).2.buffer = strL "xy" ∧
    (feed initialParser (strL "xy") 0).2.processedLength = 2 ∧
    takeRight (strL "xy") 200 ≠ takeRight (strL "yz") 200 :=
  ⟨by decide, by decide, ⟨strL "x", rfl⟩, ⟨strL "z", rfl⟩, by decide, by decide, by decide⟩

/-- C5 amended: the displacement branch consults only the single suffix of
the old buffer of length min(old length, new length, 500): when that tail
occurs in the new buffer the cursor is rebased to just past its last
occurrence, and when that particular tail does not occur the cursor is reset
to zero, even if a shorter suffix of the old buffer does appear. -/
theorem C5_rebase_uses_single_tail (buffer cleaned : JSStr) :
    (displacementNewCursor buffer cleaned = 0 ∧
      ∀ i, i ≤ cleaned.length →
        ¬ takeRight buffer (min (min buffer.length cleaned.length) 500) <+: cleaned.drop i) ∨
    (∃ i, i ≤ cleaned.length ∧
      takeRight buffer (min (min buffer.length cleaned.length) 500) <+: cleaned.drop i ∧
      (∀ j, j ≤ cleaned.length →
        takeRight buffer (min (min buffer.length cleaned.length) 500) <+: cleaned.drop j →
        j ≤ i) ∧
      displacementNewCursor buffer cleaned =
        i + min (min buffer.length cleaned.length) 500) := by
  unfold displacementNewCursor
  dsimp only
  cases hli : jsLastIndexOf cleaned
      (takeRight buffer (min (min buffer.length cleaned.length) 500)) with
  | none =>
    left
    exact ⟨rfl, fun i hi hpre => (jsLastIndexOf_none_iff _ _).mp hli i hi hpre⟩
  | some idx =>
    right
    obtain ⟨h1, h2, h3⟩ := jsLastIndexOf_some_spec _ _ idx hli
    exact ⟨idx, h1, h2, h3, rfl⟩

/-! ## Claim C1: re-feeding a suffix neither duplicates nor drops content -/

theorem feed_fresh_state (T1 : JSStr) (now1 : Nat) (h1 : T1 ≠ [])
    (hco : cleanOutput T1 = T1) :
    (feed initialParser T1 now1).2.buffer = T1 ∧
    (feed initialParser T1 now1).2.processedLength = T1.length := by
  have hpos : 0 < T1.length := List.length_pos.mpr h1
  unfold feed
  dsimp only
  rw [hco]
  rw [if_neg (by simp [initialParser])]
  unfold feedParse
  rw [if_neg (by simp only [initialParser]; omega)]
  dsimp only
  constructor
  · rw [(checkCompletion_frame _ _ _).1, (parseContent_frame _ _ _).1]
  · rw [(checkCompletion_frame _ _ _).2.1, (parseContent_frame _ _ _).2]

/-- C1: for any cumulative cleaned text `T1` and any suffix `T2` of it
(scrollback truncation), feeding `T1` and then `T2` to a fresh parser emits
no further block on the second feed and leaves the accumulated text, the
pending accumulator, the stored blocks and the value of `getTextResponse`
exactly as after feeding `T1` alone — nothing is duplicated and nothing is
dropped. -/
theorem C1_suffix_refeed_is_noop (T1 T2 : JSStr) (now1 now2 : Nat)
    (hclean : ∀ c ∈ T1, c ≠ '\x1b' ∧ c ≠ '\r') (hsuf : T2 <:+ T1) :
    (feed (feed initialParser T1 now1).2 T2 now2).1 = [] ∧
    (feed (feed initialParser T1 now1).2 T2 now2).2.textAccumulator =
      (feed initialParser T1 now1).2.textAccumulator ∧
    (feed (feed initialParser T1 now1).2 T2 now2).2.currentBlockContent =
      (feed initialParser T1 now1).2.currentBlockContent ∧
    (feed (feed initialParser T1 now1).2 T2 now2).2.blocks =
      (feed initialParser T1 now1).2.blocks ∧
    (getTextResponse (feed (feed initialParser T1 now1).2 T2 now2).2).1 =
      (getTextResponse (feed initialParser T1 now1).2).1 := by
  have hco1 : cleanOutput T1 = T1 := cleanOutput_of_clean T1 hclean
  have hclean2 : ∀ c ∈ T2, c ≠ '\x1b' ∧ c ≠ '\r' := fun c hc => hclean c (hsuf.subset hc)
  have hco2 : cleanOutput T2 = T2 := cleanOutput_of_clean T2 hclean2
  suffices h : (feed (feed initialParser T1 now1).2 T2 now2).1 = [] ∧
      (feed (feed initialParser T1 now1).2 T2 now2).2.textAccumulator =
        (feed initialParser T1 now1).2.textAccumulator ∧
      (feed (feed initialParser T1 now1).2 T2 now2).2.currentBlockContent =
        (feed initialParser T1 now1).2.currentBlockContent ∧
      (feed (feed initialParser T1 now1).2 T2 now2).2.blocks =
        (feed initialParser T1 now1).2.blocks by
    exact ⟨h.1, h.2.1, h.2.2.1, h.2.2.2,
      getTextResponse_val_congr _ _ h.2.1 h.2.2.1⟩
  by_cases h1 : T1 = []
  · subst h1
    obtain rfl : T2 = [] := List.suffix_nil.mp hsuf
    exact ⟨rfl, rfl, rfl, rfl⟩
  · obtain ⟨hb, hpl⟩ := feed_fresh_state T1 now1 h1 hco1
    have hlen : T2.length ≤ T1.length := hsuf.length_le
    set σ := (feed initialParser T1 now1).2 with hσ
    unfold feed
    dsimp only
    rw [hco2, hb, hpl]
    rw [if_pos ⟨hlen, h1⟩]
    by_cases hT2 : T2 = []
    · subst hT2
      rw [if_neg (by simp)]
      exact ⟨rfl, (checkCompletion_frame σ [] now2).2.2.2.1,
        (checkCompletion_frame σ [] now2).2.2.2.2,
        (checkCompletion_frame σ [] now2).2.2.1⟩
    · by_cases hlen2 : T2.length = T1.length
      · have hT1T2 : T2 = T1 := hsuf.eq_of_length hlen2
        rw [if_neg (by simp [hT1T2])]
        exact ⟨rfl, (checkCompletion_frame σ T2 now2).2.2.2.1,
          (checkCompletion_frame σ T2 now2).2.2.2.2,
          (checkCompletion_frame σ T2 now2).2.2.1⟩
      · have hlt : T2.length < T1.length := lt_of_le_of_ne hlen hlen2
        by_cases h200 : 200 ≤ T2.length
        · have heq : takeRight T2 200 = takeRight T1 200 :=
            takeRight_of_suffix T1 T2 hsuf 200 h200
          rw [if_neg (by simp [heq])]
          exact ⟨rfl, (checkCompletion_frame σ T2 now2).2.2.2.1,
            (checkCompletion_frame σ T2 now2).2.2.2.2,
            (checkCompletion_frame σ T2 now2).2.2.1⟩
        · have hne : takeRight T1 200 ≠ takeRight T2 200 := by
            intro he
            have hlen' := congrArg List.length he
            rw [takeRight_length, takeRight_length] at hlen'
            omega
          have hpos : 0 < T2.length := List.length_pos.mpr hT2
          rw [if_pos ⟨hne, hpos⟩]
          have hdnc : displacementNewCursor T1 T2 = T2.length := by
            unfold displacementNewCursor
            dsimp only
            have hmin : min (min T1.length T2.length) 500 = T2.length := by omega
            rw [hmin, takeRight_self_of_suffix T1 T2 hsuf, jsLastIndexOf_self]
            simp
          rw [hdnc]
          unfold feedParse
          dsimp only
          rw [if_pos (le_refl T2.length)]
          exact ⟨rfl, (checkCompletion_frame _ T2 now2).2.2.2.1,
            (checkCompletion_frame _ T2 now2).2.2.2.2,
            (checkCompletion_frame _ T2 now2).2.2.1⟩

/-- Witness for C1: the two-character cleaned text "ab" followed by its
suffix "b". -/
theorem C1_suffix_refeed_witness :
    (∀ c ∈ strL "ab", c ≠ '\x1b' ∧ c ≠ '\r') ∧
    strL "b" <:+ strL "ab" ∧
    ((feed (feed initialParser (strL "ab") 0).2 (strL "b") 1).1 = [] ∧
     (feed (feed initialParser (strL "ab") 0).2 (strL "b") 1).2.textAccumulator =
       (feed initialParser (strL "ab") 0).2.textAccumulator ∧
     (feed (feed initialParser (strL "ab") 0).2 (strL "b") 1).2.currentBlockContent =
       (feed initialParser (strL "ab") 0).2.currentBlockContent ∧
     (feed (feed initialParser (strL "ab") 0).2 (strL "b") 1).2.blocks =
       (feed initialParser (strL "ab") 0).2.blocks ∧
     (getTextResponse (feed (feed initialParser (strL "ab") 0).2 (strL "b") 1).2).1 =
       (getTextResponse (feed initialParser (strL "ab") 0).2).1) :=
  ⟨by decide, ⟨strL "a", rfl⟩,
   C1_suffix_refeed_is_noop (strL "ab") (strL "b") 0 1 (by decide) ⟨strL "a", rfl⟩⟩

end ClaudeTelegramBot
